import Mathlib

/-!
Verification of the ingestion-orchestration core of the `rag-app` repository.

The definitions below are a shallow embedding of the Python sources:

* `IngestionStatus`, `IngestionFile`  — `src/app/models.py` (the `in_qdrant` and
  `output_tree_path` columns are added to the `ingestion_files` table by
  `migrate_db` in `src/app/database.py` and manipulated by
  `src/app/routes/batches.py`; they are included as fields of the record).
* `monitorGo` / `monitor`             — `_monitor_parsing_status` in
  `src/app/background_tasks.py`.
* `callDataprep`                      — `_call_dataprep` in `src/app/background_tasks.py`.
* `updateFileStatus`                  — `_update_file_status` in `src/app/background_tasks.py`.
* `runFilePipeline` / `processOneCaught` / `processBatch`
                                      — the per-file loop of `process_ingestion_pipeline`
                                        in `src/app/background_tasks.py`.
* `overallStatus`                     — the aggregate-status computation in
  `get_ingestion_status`, `src/app/routes/status.py`.
* `addToQdrantUpdateExisting` / `addToQdrantNewRecord` / `addToQdrantDb`
                                      — the per-file database update of
  `add_files_to_qdrant`, `src/app/routes/batches.py`.
* `ingest_documents`                  — the validation and record-creation part of
  `ingest_documents`, `src/app/routes/ingest.py`.

The external parsing service is modelled by a function `Nat → PollResult` giving
the outcome of each status check, and the preparation service by `PrepOutcome`.
`MonitorResult.trace` collects the database snapshots in the order they are
committed, so that invariants "at every persisted point" can be stated.
-/

/-- Lifecycle status enum (`IngestionStatus` in `src/app/models.py`). -/
inductive IngestionStatus where
  | queued
  | parsing
  | parsed
  | preparing
  | completed
  | failed
deriving Repr, DecidableEq

/-- The `.value` string of a lifecycle status (Python `str` enum values). -/
def statusValue : IngestionStatus → String
  | .queued => "queued"
  | .parsing => "parsing"
  | .parsed => "parsed"
  | .preparing => "preparing"
  | .completed => "completed"
  | .failed => "failed"

/-- One row of the `ingestion_files` table (`IngestionFile` in `src/app/models.py`,
plus the `in_qdrant` / `output_tree_path` columns added by `migrate_db`).
Nullable columns are `Option`s; `none` models SQL NULL / absent. -/
structure IngestionFile where
  batch_job_id : String
  batch_job_file_id : String
  filename : String
  status : IngestionStatus
  parsing_status : String
  dataprep_status : String
  error_message : Option String
  parser_output_path : Option String
  in_qdrant : Bool
  output_tree_path : Option String
deriving Repr, DecidableEq

/-- A JSON status response of the external parser
(`check_parsing_status` result): the fields read by the orchestrator,
each possibly absent. -/
structure StatusResponse where
  status : Option String
  output_path : Option String
  error : Option String
deriving Repr, DecidableEq

/-- Outcome of one status check against the external parsing service:
either a decoded response or a raised transport-level exception with its
message (`str(e)` in Python). -/
inductive PollResult where
  | ok (resp : StatusResponse)
  | exn (msg : String)
deriving Repr, DecidableEq

/-- Outcome of the blocking `dataprep_service.ingest_document` call: success or a
raised exception with its message. -/
inductive PrepOutcome where
  | ok
  | error (msg : String)
deriving Repr, DecidableEq

/-- Result of a monitoring / preparation stage: the final state of the database
row, the committed snapshots in order, and the message of the exception that
escaped the stage (`none` if it returned normally). -/
structure MonitorResult where
  file : IngestionFile
  trace : List IngestionFile
  error : Option String
deriving Repr, DecidableEq

/-- The `TimeoutError` message of `_monitor_parsing_status`:
`f"Parsing timeout for {filename} after {max_retries * retry_interval} seconds"`. -/
def timeoutMessage (filename : String) (maxRetries retryInterval : Nat) : String :=
  "Parsing timeout for " ++ filename ++ " after " ++
    toString (maxRetries * retryInterval) ++ " seconds"

/-- The polling loop of `_monitor_parsing_status` (`src/app/background_tasks.py`
lines 95–134).  `attempt` is the Python loop index, `fuel` the number of
attempts still available (initially `max_retries`); the Python guard
`attempt < max_retries - 1` is `fuel ≠ 0` after consuming the current attempt.
Each iteration checks the external service (`polls attempt`):

* a transport exception is caught; on the last attempt it is re-raised,
  otherwise the loop continues unchanged;
* stage `"completed"` commits status `parsed` together with the reported
  `output_path` and returns;
* stage `"failed"` commits status `failed` with the reported error and raises
  `RuntimeError`, which is caught by the same `except` block: on the last
  attempt it propagates, otherwise the loop keeps polling;
* any other stage commits the sub-status and continues.

If the loop runs out of attempts a `TimeoutError` carrying `tmsg` is raised. -/
def monitorGo (polls : Nat → PollResult) (tmsg : String) :
    Nat → Nat → IngestionFile → MonitorResult
  | _, 0, f => ⟨f, [], some tmsg⟩
  | attempt, fuel + 1, f =>
      match polls attempt with
      | .exn msg =>
          if fuel = 0 then ⟨f, [], some msg⟩
          else monitorGo polls tmsg (attempt + 1) fuel f
      | .ok resp =>
          let ps := resp.status.getD "pending"
          let f1 := { f with parsing_status := ps }
          if ps = "completed" then
            let f2 := { f1 with status := .parsed,
                                parser_output_path := resp.output_path }
            ⟨f2, [f2], none⟩
          else if ps = "failed" then
            let err := resp.error.getD "Unknown error"
            let f2 := { f1 with status := .failed, error_message := some err }
            if fuel = 0 then ⟨f2, [f2], some ("Parsing failed: " ++ err)⟩
            else
              let r := monitorGo polls tmsg (attempt + 1) fuel f2
              ⟨r.file, f2 :: r.trace, r.error⟩
          else
            let r := monitorGo polls tmsg (attempt + 1) fuel f1
            ⟨r.file, f1 :: r.trace, r.error⟩

/-- `_monitor_parsing_status` run from attempt 0 with the default-computed
timeout message. -/
def monitor (polls : Nat → PollResult) (maxRetries retryInterval : Nat)
    (filename : String) (f : IngestionFile) : MonitorResult :=
  monitorGo polls (timeoutMessage filename maxRetries retryInterval) 0 maxRetries f

/-- `_call_dataprep` (`src/app/background_tasks.py` lines 140–199): commit
status `preparing` with dataprep sub-status `in_progress`, perform the blocking
ingest call, then either commit `completed` or commit `failed` with the error
message and re-raise. -/
def callDataprep (prep : PrepOutcome) (f : IngestionFile) : MonitorResult :=
  let f1 := { f with status := .preparing, dataprep_status := "in_progress" }
  match prep with
  | .ok =>
      let f2 := { f1 with status := .completed, dataprep_status := "completed" }
      ⟨f2, [f1, f2], none⟩
  | .error msg =>
      let f2 := { f1 with status := .failed, dataprep_status := "failed",
                          error_message := some msg }
      ⟨f2, [f1, f2], some msg⟩

/-- `_update_file_status` (`src/app/background_tasks.py` lines 202–224) as used
by the per-file exception handler: set the lifecycle status, and attach the
error message only when it is truthy (non-empty). -/
def updateFileStatus (f : IngestionFile) (status : IngestionStatus)
    (error : String) : IngestionFile :=
  { f with status := status,
           error_message := if error = "" then f.error_message else some error }

/-- Everything one per-file pipeline run depends on: the external parser's
responses, the polling budget and interval, the preparation outcome, and the
file's database row as created at submission time. -/
structure FileInput where
  polls : Nat → PollResult
  maxRetries : Nat
  retryInterval : Nat
  prep : PrepOutcome
  file : IngestionFile

/-- The body of the per-file `try` block of `process_ingestion_pipeline`
(`src/app/background_tasks.py` lines 42–49): monitor parsing, then call
DataPrep.  `raised` is the message of the exception escaping the body, if any;
`trace` starts with the row as committed at submission. -/
def runFilePipeline (inp : FileInput) : MonitorResult :=
  match (monitor inp.polls inp.maxRetries inp.retryInterval inp.file.filename
      inp.file).error with
  | some msg =>
      ⟨(monitor inp.polls inp.maxRetries inp.retryInterval inp.file.filename
          inp.file).file,
       inp.file :: (monitor inp.polls inp.maxRetries inp.retryInterval
          inp.file.filename inp.file).trace,
       some msg⟩
  | none =>
      ⟨(callDataprep inp.prep
          (monitor inp.polls inp.maxRetries inp.retryInterval inp.file.filename
            inp.file).file).file,
       inp.file :: (monitor inp.polls inp.maxRetries inp.retryInterval
          inp.file.filename inp.file).trace ++
         (callDataprep inp.prep
           (monitor inp.polls inp.maxRetries inp.retryInterval inp.file.filename
             inp.file).file).trace,
       (callDataprep inp.prep
         (monitor inp.polls inp.maxRetries inp.retryInterval inp.file.filename
           inp.file).file).error⟩

/-- One iteration of the per-file loop of `process_ingestion_pipeline`
including its `except` handler (lines 51–61): an exception escaping the body is
recorded as a terminal `failed` status with the error message attached.
Returns the final row together with all committed snapshots. -/
def processOneCaught (inp : FileInput) : IngestionFile × List IngestionFile :=
  match (runFilePipeline inp).error with
  | none => ((runFilePipeline inp).file, (runFilePipeline inp).trace)
  | some msg =>
      (updateFileStatus (runFilePipeline inp).file .failed msg,
       (runFilePipeline inp).trace ++
         [updateFileStatus (runFilePipeline inp).file .failed msg])

/-- The whole per-file loop of `process_ingestion_pipeline`: each file of the
batch is processed by the caught body, independently of its siblings. -/
def processBatch (inputs : List FileInput) : List IngestionFile :=
  inputs.map (fun inp => (processOneCaught inp).1)

/-- The sequence of persisted lifecycle statuses of one pipeline run. -/
def statusTrace (inp : FileInput) : List IngestionStatus :=
  (processOneCaught inp).2.map (·.status)

/-- Position of a status along the ordered chain
`queued → parsing → parsed → preparing → completed`. -/
def statusRank : IngestionStatus → Nat
  | .queued => 0
  | .parsing => 1
  | .parsed => 2
  | .preparing => 3
  | .completed => 4
  | .failed => 5

/-- One admissible step of the lifecycle state machine claimed by the spec:
statuses are non-decreasing along
`queued → parsing → parsed → preparing → completed`, `failed` is reachable from
any non-terminal state, and the two terminal states never change. -/
def statusStep (s t : IngestionStatus) : Bool :=
  match s with
  | .failed => t == .failed
  | .completed => t == .completed
  | _ => t == .failed || statusRank s ≤ statusRank t

/-- A status sequence is monotone in the sense of the spec's state machine when
every adjacent pair is an admissible step. -/
def monotoneOK : List IngestionStatus → Bool
  | [] => true
  | [_] => true
  | s :: t :: rest => statusStep s t && monotoneOK (t :: rest)

/-- The file record as created by `ingest_documents`
(`src/app/routes/ingest.py` lines 93–103): status `parsing`, default
sub-statuses, no error, no parser output. -/
def initialFile (batchId fileId filename : String) : IngestionFile :=
  { batch_job_id := batchId
    batch_job_file_id := fileId
    filename := filename
    status := .parsing
    parsing_status := "pending"
    dataprep_status := "pending"
    error_message := none
    parser_output_path := none
    in_qdrant := false
    output_tree_path := none }

/-- The aggregate-job-status computation of `get_ingestion_status`
(`src/app/routes/status.py` lines 95–103), as a function of the files'
lifecycle statuses and the job's stored status (`ingestion_job.status.value`
is returned by the final `else`). -/
def overallStatus (files : List IngestionStatus) (jobStatus : IngestionStatus) : String :=
  if files.all (fun s => statusValue s == "completed") then "completed"
  else if files.any (fun s => statusValue s == "failed") then "failed"
  else if files.any (fun s => statusValue s == "parsing" || statusValue s == "preparing") then
    "processing"
  else statusValue jobStatus

/-- The in-place update of an existing `IngestionFile` row performed by
`add_files_to_qdrant` after a successful DataPrep call
(`src/app/routes/batches.py` lines 202–208). -/
def addToQdrantUpdateExisting (f : IngestionFile) (output_tree_path : String) :
    IngestionFile :=
  { f with in_qdrant := true
           dataprep_status := "completed"
           status := .completed
           output_tree_path := some output_tree_path }

/-- The fresh `IngestionFile` row created by `add_files_to_qdrant` when no row
with the given file id exists (`src/app/routes/batches.py` lines 210–221). -/
def addToQdrantNewRecord (batch_id file_id filename output_tree_path : String) :
    IngestionFile :=
  { batch_job_id := batch_id
    batch_job_file_id := file_id
    filename := filename
    status := .completed
    parsing_status := "completed"
    dataprep_status := "completed"
    error_message := none
    parser_output_path := none
    in_qdrant := true
    output_tree_path := some output_tree_path }

/-- Update the first row whose `batch_job_file_id` matches (the
`query(...).first()` target of `add_files_to_qdrant`). -/
def updateFirstMatch : List IngestionFile → String → String → List IngestionFile
  | [], _, _ => []
  | f :: rest, file_id, otp =>
      if f.batch_job_file_id == file_id then
        addToQdrantUpdateExisting f otp :: rest
      else
        f :: updateFirstMatch rest file_id otp

/-- The `ingestion_files`-table effect of one successfully prepared file in
`add_files_to_qdrant` (`src/app/routes/batches.py` lines 197–223): if a row
with this `batch_job_file_id` exists it is updated in place, otherwise a new
row is appended. -/
def addToQdrantDb (db : List IngestionFile)
    (batch_id file_id filename output_tree_path : String) : List IngestionFile :=
  if db.any (fun f => f.batch_job_file_id == file_id) then
    updateFirstMatch db file_id output_tree_path
  else
    db ++ [addToQdrantNewRecord batch_id file_id filename output_tree_path]

/-- Outcome of `pdf_parser_service.submit_batch_job`: the decoded
`batch_job_id` (possibly absent from the response) and file-id list, or a
raised exception. -/
inductive SubmitOutcome where
  | ok (batch_job_id : Option String) (file_ids : List String)
  | exn (msg : String)
deriving Repr, DecidableEq

/-- Python `filename.lower().endswith('.pdf')`, computed on the character
list: lower-case every character and test for the `".pdf"` suffix. -/
def endsWithPdf (name : String) : Bool :=
  List.isSuffixOf ".pdf".data (name.data.map Char.toLower)

/-- Observable effects of one call to the ingestion endpoint: whether the
batch was submitted to the external parser, how many job and file rows were
committed, and the HTTP result ((status code, detail) on error, or the
response payload `(batch_job_id, batch_job_file_ids, message)`). -/
structure IngestEffects where
  parser_submitted : Bool
  jobs_created : Nat
  files_created : Nat
  result : Except (Nat × String) (String × List String × String)
deriving Repr

/-- `ingest_documents` (`src/app/routes/ingest.py` lines 43–117) over the list
of uploaded filenames: reject an empty list, more than 10 files, or any
filename that is not a `.pdf` (first offender, in order); otherwise submit the
batch, require a `batch_job_id`, then create one job row and one file row per
`zip(batch_job_file_ids, file_list)` pair and return the success response. -/
def ingest_documents (files : List String) (submit : SubmitOutcome) : IngestEffects :=
  if files.isEmpty then
    ⟨false, 0, 0, .error (400, "No files provided")⟩
  else if files.length > 10 then
    ⟨false, 0, 0, .error (400, "Maximum 10 files per request")⟩
  else
    match files.find? (fun n => !endsWithPdf n) with
    | some bad => ⟨false, 0, 0, .error (400, "File " ++ bad ++ " is not a PDF")⟩
    | none =>
        match submit with
        | .exn msg => ⟨true, 0, 0, .error (500, "Ingestion failed: " ++ msg)⟩
        | .ok none _ =>
            ⟨true, 0, 0, .error (500, "Failed to get batch_job_id from PDF parser")⟩
        | .ok (some bid) fids =>
            ⟨true, 1, min fids.length files.length,
              .ok (bid, fids,
                "Successfully submitted " ++ toString files.length ++
                  " file(s) for processing")⟩

/-- The stage reported by one poll outcome, when the service responded
(`status_response.get("status", "pending")`); `none` for a transport error. -/
def pollStage : PollResult → Option String
  | .ok resp => some (resp.status.getD "pending")
  | .exn _ => none

/-- A poll outcome that does not report a terminal stage: either a transport
error, or a response whose stage is neither `"completed"` nor `"failed"`. -/
def nonTerminalB : PollResult → Bool
  | .ok resp =>
      !(resp.status.getD "pending" == "completed"
        || resp.status.getD "pending" == "failed")
  | .exn _ => true

/-- The parser-output-path consistency property claimed by the spec, relaxed
per the code: a row in `parsed`, `preparing` or `completed` carries a parser
output path, and a row carrying one is in `parsed`, `preparing`, `completed`
or `failed`. -/
def pathConsistent (r : IngestionFile) : Prop :=
  ((r.status = .parsed ∨ r.status = .preparing ∨ r.status = .completed) →
      r.parser_output_path.isSome) ∧
  (r.parser_output_path.isSome →
      (r.status = .parsed ∨ r.status = .preparing ∨ r.status = .completed ∨
        r.status = .failed))

instance (r : IngestionFile) : Decidable (pathConsistent r) := by
  unfold pathConsistent; infer_instance

/-- Hypothesis on the external parser: whenever it reports stage
`"completed"` it also reports an output path. -/
def completedHasPath (polls : Nat → PollResult) : Prop :=
  ∀ i resp, polls i = .ok resp → resp.status.getD "pending" = "completed" →
    resp.output_path.isSome

/-- Hypothesis for C5: every transport-error message the parser can raise for
this file, and any preparation-failure message, is a non-empty string (Python
`str(e)` of the raised exception;  `_update_file_status` only attaches truthy
messages). -/
def goodMessages (inp : FileInput) : Prop :=
  (∀ i msg, inp.polls i = .exn msg → msg ≠ "") ∧
  (∀ msg, inp.prep = .error msg → msg ≠ "")

/-- A freshly submitted file record, used for concrete runs. -/
def sampleFile : IngestionFile := initialFile "batch-1" "file-1" "doc.pdf"

/-- Parser behaviour: the first status check reports `"failed"` with an
upstream error, every later check reports `"completed"` with an output path. -/
def rejectThenCompletePolls : Nat → PollResult := fun i =>
  if i = 0 then .ok ⟨some "failed", none, some "upstream parse error"⟩
  else .ok ⟨some "completed", some "/out/doc", none⟩

/-- Pipeline input with budget 2 over `rejectThenCompletePolls` and a
successful preparation call. -/
def rejectThenCompleteInput : FileInput :=
  ⟨rejectThenCompletePolls, 2, 5, .ok, sampleFile⟩

/-- Parser behaviour: every status check reports `"completed"` with an
output path. -/
def donePolls : Nat → PollResult :=
  fun _ => .ok ⟨some "completed", some "/out/doc", none⟩

/-- Pipeline input: parse completes at once, preparation succeeds. -/
def prepOkInput : FileInput := ⟨donePolls, 1, 5, .ok, sampleFile⟩

/-- Pipeline input: parse completes at once, preparation fails. -/
def prepFailInput : FileInput := ⟨donePolls, 1, 5, .error "dataprep down", sampleFile⟩

/-- Pipeline input: parse completes at once but the parser's response carries
no `output_path`. -/
def noPathInput : FileInput :=
  ⟨fun _ => .ok ⟨some "completed", none, none⟩, 1, 5, .ok, sampleFile⟩

/-- Pipeline input: every status check raises a transport error, with the
default budget of 60 checks. -/
def transportFailInput : FileInput :=
  ⟨fun _ => .exn "Connection refused", 60, 5, .ok, sampleFile⟩

/-- Parser behaviour: every status check returns stage `"pending"`. -/
def pendingPolls : Nat → PollResult := fun _ => .ok ⟨some "pending", none, none⟩

/-- Pipeline input: the parse never finishes, with the default budget. -/
def pendingInput : FileInput := ⟨pendingPolls, 60, 5, .ok, sampleFile⟩

/-- Parser behaviour: stage `"pending"` on the first 59 checks and
`"completed"` on the 60th. -/
def boundaryPolls : Nat → PollResult := fun i =>
  if i < 59 then .ok ⟨some "pending", none, none⟩
  else .ok ⟨some "completed", some "/out/doc", none⟩

/-- Pipeline input whose first monitoring attempt raises a transport error on
a budget of one check. -/
def failFastInput : FileInput := ⟨fun _ => .exn "boom", 1, 5, .ok, sampleFile⟩

theorem append_ne_empty_left (a b : String) (ha : a ≠ "") : a ++ b ≠ "" := by
  intro h
  apply ha
  have hd := congrArg String.data h
  rw [String.data_append] at hd
  have : a.data = [] := (List.append_eq_nil.mp hd).1
  exact String.ext this

theorem timeoutMessage_ne_empty (fn : String) (m r : Nat) :
    timeoutMessage fn m r ≠ "" := by
  unfold timeoutMessage
  apply append_ne_empty_left
  apply append_ne_empty_left
  apply append_ne_empty_left
  apply append_ne_empty_left
  decide

theorem parsingFailed_ne_empty (e : String) : "Parsing failed: " ++ e ≠ "" := by
  apply append_ne_empty_left; decide

theorem monitorGo_zero (polls : Nat → PollResult) (tmsg : String) (attempt : Nat)
    (f : IngestionFile) :
    monitorGo polls tmsg attempt 0 f = ⟨f, [], some tmsg⟩ := rfl

theorem monitorGo_exn (polls : Nat → PollResult) (tmsg : String)
    (attempt fuel : Nat) (f : IngestionFile) (m : String)
    (hp : polls attempt = .exn m) :
    monitorGo polls tmsg attempt (fuel + 1) f =
      if fuel = 0 then ⟨f, [], some m⟩
      else monitorGo polls tmsg (attempt + 1) fuel f := by
  rw [monitorGo, hp]

theorem monitorGo_ok_completed (polls : Nat → PollResult) (tmsg : String)
    (attempt fuel : Nat) (f : IngestionFile) (resp : StatusResponse)
    (hp : polls attempt = .ok resp)
    (hc : resp.status.getD "pending" = "completed") :
    monitorGo polls tmsg attempt (fuel + 1) f =
      ⟨{ f with parsing_status := "completed", status := .parsed,
                parser_output_path := resp.output_path },
       [{ f with parsing_status := "completed", status := .parsed,
                 parser_output_path := resp.output_path }], none⟩ := by
  rw [monitorGo, hp]
  simp [hc]

theorem monitorGo_ok_failed (polls : Nat → PollResult) (tmsg : String)
    (attempt fuel : Nat) (f : IngestionFile) (resp : StatusResponse)
    (hp : polls attempt = .ok resp)
    (hfl : resp.status.getD "pending" = "failed") :
    monitorGo polls tmsg attempt (fuel + 1) f =
      (if fuel = 0 then
        ⟨{ f with parsing_status := "failed", status := .failed,
                  error_message := some (resp.error.getD "Unknown error") },
         [{ f with parsing_status := "failed", status := .failed,
                   error_message := some (resp.error.getD "Unknown error") }],
         some ("Parsing failed: " ++ resp.error.getD "Unknown error")⟩
      else
        ⟨(monitorGo polls tmsg (attempt + 1) fuel
            { f with parsing_status := "failed", status := .failed,
                     error_message := some (resp.error.getD "Unknown error") }).file,
         { f with parsing_status := "failed", status := .failed,
                  error_message := some (resp.error.getD "Unknown error") } ::
           (monitorGo polls tmsg (attempt + 1) fuel
             { f with parsing_status := "failed", status := .failed,
                      error_message := some (resp.error.getD "Unknown error") }).trace,
         (monitorGo polls tmsg (attempt + 1) fuel
           { f with parsing_status := "failed", status := .failed,
                    error_message := some (resp.error.getD "Unknown error") }).error⟩) := by
  rw [monitorGo, hp]
  simp [hfl]

theorem monitorGo_ok_other (polls : Nat → PollResult) (tmsg : String)
    (attempt fuel : Nat) (f : IngestionFile) (resp : StatusResponse)
    (hp : polls attempt = .ok resp)
    (hc : resp.status.getD "pending" ≠ "completed")
    (hfl : resp.status.getD "pending" ≠ "failed") :
    monitorGo polls tmsg attempt (fuel + 1) f =
      ⟨(monitorGo polls tmsg (attempt + 1) fuel
          { f with parsing_status := resp.status.getD "pending" }).file,
       { f with parsing_status := resp.status.getD "pending" } ::
         (monitorGo polls tmsg (attempt + 1) fuel
           { f with parsing_status := resp.status.getD "pending" }).trace,
       (monitorGo polls tmsg (attempt + 1) fuel
         { f with parsing_status := resp.status.getD "pending" }).error⟩ := by
  rw [monitorGo, hp]
  simp [hc, hfl]

theorem pathConsistent_of_failed (r : IngestionFile) (h : r.status = .failed) :
    pathConsistent r := by
  constructor
  · rintro (h1 | h1 | h1) <;> rw [h] at h1 <;> exact absurd h1 (by decide)
  · intro _
    exact .inr (.inr (.inr h))

theorem monitorGo_parsed_of_error_none (polls : Nat → PollResult) (tmsg : String)
    (attempt fuel : Nat) (f : IngestionFile)
    (h : (monitorGo polls tmsg attempt fuel f).error = none) :
    (monitorGo polls tmsg attempt fuel f).file.status = .parsed := by
  induction fuel generalizing attempt f with
  | zero => simp [monitorGo_zero] at h
  | succ fuel ih =>
    rcases hp : polls attempt with resp | m
    · by_cases hc : resp.status.getD "pending" = "completed"
      · rw [monitorGo_ok_completed polls tmsg attempt fuel f resp hp hc]
      · by_cases hfl : resp.status.getD "pending" = "failed"
        · rw [monitorGo_ok_failed polls tmsg attempt fuel f resp hp hfl] at h ⊢
          by_cases hz : fuel = 0
          · simp [hz] at h
          · rw [if_neg hz] at h ⊢
            exact ih _ _ h
        · rw [monitorGo_ok_other polls tmsg attempt fuel f resp hp hc hfl] at h ⊢
          exact ih _ _ h
    · rw [monitorGo_exn polls tmsg attempt fuel f m hp] at h ⊢
      by_cases hz : fuel = 0
      · simp [hz] at h
      · rw [if_neg hz] at h ⊢
        exact ih _ _ h

theorem monitorGo_error_cases (polls : Nat → PollResult) (tmsg : String)
    (attempt fuel : Nat) (f : IngestionFile) (msg : String)
    (h : (monitorGo polls tmsg attempt fuel f).error = some msg) :
    msg = tmsg ∨ (∃ i m, polls i = .exn m ∧ msg = m) ∨
      ∃ e, msg = "Parsing failed: " ++ e := by
  induction fuel generalizing attempt f with
  | zero =>
    rw [monitorGo_zero] at h
    exact .inl (Option.some_inj.mp h).symm
  | succ fuel ih =>
    rcases hp : polls attempt with resp | m
    · by_cases hc : resp.status.getD "pending" = "completed"
      · rw [monitorGo_ok_completed polls tmsg attempt fuel f resp hp hc] at h
        exact absurd h (by simp)
      · by_cases hfl : resp.status.getD "pending" = "failed"
        · rw [monitorGo_ok_failed polls tmsg attempt fuel f resp hp hfl] at h
          by_cases hz : fuel = 0
          · rw [if_pos hz] at h
            exact .inr (.inr ⟨resp.error.getD "Unknown error", (Option.some_inj.mp h).symm⟩)
          · rw [if_neg hz] at h
            exact ih _ _ h
        · rw [monitorGo_ok_other polls tmsg attempt fuel f resp hp hc hfl] at h
          exact ih _ _ h
    · rw [monitorGo_exn polls tmsg attempt fuel f m hp] at h
      by_cases hz : fuel = 0
      · rw [if_pos hz] at h
        exact .inr (.inl ⟨attempt, m, hp, (Option.some_inj.mp h).symm⟩)
      · rw [if_neg hz] at h
        exact ih _ _ h

theorem monitorGo_in_qdrant (polls : Nat → PollResult) (tmsg : String)
    (attempt fuel : Nat) (f : IngestionFile) :
    (monitorGo polls tmsg attempt fuel f).file.in_qdrant = f.in_qdrant := by
  induction fuel generalizing attempt f with
  | zero => rw [monitorGo_zero]
  | succ fuel ih =>
    rcases hp : polls attempt with resp | m
    · by_cases hc : resp.status.getD "pending" = "completed"
      · rw [monitorGo_ok_completed polls tmsg attempt fuel f resp hp hc]
      · by_cases hfl : resp.status.getD "pending" = "failed"
        · rw [monitorGo_ok_failed polls tmsg attempt fuel f resp hp hfl]
          by_cases hz : fuel = 0
          · rw [if_pos hz]
          · rw [if_neg hz]
            exact ih _ _
        · rw [monitorGo_ok_other polls tmsg attempt fuel f resp hp hc hfl]
          exact ih _ _
    · rw [monitorGo_exn polls tmsg attempt fuel f m hp]
      by_cases hz : fuel = 0
      · rw [if_pos hz]
      · rw [if_neg hz]
        exact ih _ _

theorem monitorGo_pathConsistent (polls : Nat → PollResult) (tmsg : String)
    (attempt fuel : Nat) (f : IngestionFile)
    (hpath : completedHasPath polls) (hf : pathConsistent f) :
    pathConsistent (monitorGo polls tmsg attempt fuel f).file ∧
      ∀ r ∈ (monitorGo polls tmsg attempt fuel f).trace, pathConsistent r := by
  induction fuel generalizing attempt f with
  | zero =>
    rw [monitorGo_zero]
    exact ⟨hf, by simp⟩
  | succ fuel ih =>
    rcases hp : polls attempt with resp | m
    · by_cases hc : resp.status.getD "pending" = "completed"
      · rw [monitorGo_ok_completed polls tmsg attempt fuel f resp hp hc]
        have hsome := hpath attempt resp hp hc
        have hP : pathConsistent
            { f with parsing_status := "completed", status := .parsed,
                     parser_output_path := resp.output_path } :=
          ⟨fun _ => hsome, fun _ => .inl rfl⟩
        refine ⟨hP, ?_⟩
        intro r hr
        simp only [List.mem_singleton] at hr
        subst hr
        exact hP
      · by_cases hfl : resp.status.getD "pending" = "failed"
        · rw [monitorGo_ok_failed polls tmsg attempt fuel f resp hp hfl]
          have hfail : pathConsistent
              { f with parsing_status := "failed", status := .failed,
                       error_message := some (resp.error.getD "Unknown error") } :=
            pathConsistent_of_failed _ rfl
          by_cases hz : fuel = 0
          · rw [if_pos hz]
            refine ⟨hfail, ?_⟩
            intro r hr
            simp only [List.mem_singleton] at hr
            subst hr
            exact hfail
          · rw [if_neg hz]
            obtain ⟨h1, h2⟩ := ih (attempt + 1) _ hfail
            refine ⟨h1, ?_⟩
            intro r hr
            simp only [List.mem_cons] at hr
            rcases hr with hr | hr
            · subst hr; exact hfail
            · exact h2 r hr
        · rw [monitorGo_ok_other polls tmsg attempt fuel f resp hp hc hfl]
          have hpend : pathConsistent
              { f with parsing_status := resp.status.getD "pending" } := hf
          obtain ⟨h1, h2⟩ := ih (attempt + 1) _ hpend
          refine ⟨h1, ?_⟩
          intro r hr
          simp only [List.mem_cons] at hr
          rcases hr with hr | hr
          · subst hr; exact hpend
          · exact h2 r hr
    · rw [monitorGo_exn polls tmsg attempt fuel f m hp]
      by_cases hz : fuel = 0
      · rw [if_pos hz]
        exact ⟨hf, by simp⟩
      · rw [if_neg hz]
        exact ih _ _ hf

theorem nonTerminalB_ok (resp : StatusResponse)
    (h : nonTerminalB (.ok resp) = true) :
    resp.status.getD "pending" ≠ "completed" ∧
      resp.status.getD "pending" ≠ "failed" := by
  have h' : (!(resp.status.getD "pending" == "completed"
      || resp.status.getD "pending" == "failed")) = true := h
  simp only [Bool.not_eq_true', Bool.or_eq_false_iff, beq_eq_false_iff_ne] at h'
  exact h' 

theorem monitorGo_timeout (polls : Nat → PollResult) (tmsg : String)
    (attempt fuel : Nat) (f : IngestionFile)
    (h1 : 1 ≤ fuel)
    (h2 : ∀ j, attempt ≤ j → j < attempt + fuel → nonTerminalB (polls j) = true)
    (h3 : ∃ resp, polls (attempt + fuel - 1) = .ok resp) :
    (monitorGo polls tmsg attempt fuel f).error = some tmsg := by
  induction fuel generalizing attempt f with
  | zero => omega
  | succ fuel ih =>
    rcases hp : polls attempt with resp | m
    · obtain ⟨hc, hfl⟩ := nonTerminalB_ok resp
        (by simpa [hp] using h2 attempt (Nat.le_refl _) (by omega))
      rw [monitorGo_ok_other polls tmsg attempt fuel f resp hp hc hfl]
      by_cases hz : fuel = 0
      · subst hz
        rw [monitorGo_zero]
      · refine ih (attempt + 1) _ (by omega) ?_ ?_
        · intro j hj1 hj2
          exact h2 j (by omega) (by omega)
        · obtain ⟨r, hr⟩ := h3
          exact ⟨r, by rw [show attempt + 1 + fuel - 1 = attempt + (fuel + 1) - 1 by omega]; exact hr⟩
    · rw [monitorGo_exn polls tmsg attempt fuel f m hp]
      by_cases hz : fuel = 0
      · exfalso
        obtain ⟨r, hr⟩ := h3
        rw [show attempt + (fuel + 1) - 1 = attempt by omega] at hr
        rw [hp] at hr
        exact PollResult.noConfusion hr
      · rw [if_neg hz]
        refine ih (attempt + 1) _ (by omega) ?_ ?_
        · intro j hj1 hj2
          exact h2 j (by omega) (by omega)
        · obtain ⟨r, hr⟩ := h3
          exact ⟨r, by rw [show attempt + 1 + fuel - 1 = attempt + (fuel + 1) - 1 by omega]; exact hr⟩

theorem monitorGo_last_completed (polls : Nat → PollResult) (tmsg : String)
    (attempt fuel : Nat) (f : IngestionFile)
    (h1 : 1 ≤ fuel)
    (h2 : ∀ j, attempt ≤ j → j < attempt + fuel - 1 → pollStage (polls j) = some "pending")
    (h3 : pollStage (polls (attempt + fuel - 1)) = some "completed") :
    (monitorGo polls tmsg attempt fuel f).error = none ∧
      (monitorGo polls tmsg attempt fuel f).file.status = .parsed := by
  induction fuel generalizing attempt f with
  | zero => omega
  | succ fuel ih =>
    by_cases hz : fuel = 0
    · subst hz
      rw [show attempt + (0 + 1) - 1 = attempt by omega] at h3
      rcases hp : polls attempt with resp | m
      · rw [hp] at h3
        simp only [pollStage] at h3
        have hc : resp.status.getD "pending" = "completed" := by
          simpa using h3
        rw [monitorGo_ok_completed polls tmsg attempt 0 f resp hp hc]
        exact ⟨rfl, rfl⟩
      · rw [hp] at h3
        simp only [pollStage] at h3
        exact absurd h3 (by simp)
    · have hpend : pollStage (polls attempt) = some "pending" :=
        h2 attempt (Nat.le_refl _) (by omega)
      rcases hp : polls attempt with resp | m
      · rw [hp] at hpend
        simp only [pollStage] at hpend
        have hps : resp.status.getD "pending" = "pending" := by
          simpa using hpend
        have hc : resp.status.getD "pending" ≠ "completed" := by
          rw [hps]; decide
        have hfl : resp.status.getD "pending" ≠ "failed" := by
          rw [hps]; decide
        rw [monitorGo_ok_other polls tmsg attempt fuel f resp hp hc hfl]
        refine ih (attempt + 1) _ (by omega) ?_ ?_
        · intro j hj1 hj2
          exact h2 j (by omega) (by omega)
        · rw [show attempt + 1 + fuel - 1 = attempt + (fuel + 1) - 1 by omega]
          exact h3
      · rw [hp] at hpend
        simp only [pollStage] at hpend
        exact absurd hpend (by simp)

theorem callDataprep_in_qdrant (prep : PrepOutcome) (f : IngestionFile) :
    (callDataprep prep f).file.in_qdrant = f.in_qdrant := by
  cases prep <;> rfl

theorem callDataprep_error_eq (prep : PrepOutcome) (f : IngestionFile) (msg : String)
    (h : (callDataprep prep f).error = some msg) : prep = .error msg := by
  cases prep with
  | ok => exact absurd h (by simp [callDataprep])
  | error m =>
    simp only [callDataprep] at h
    rw [Option.some_inj.mp h]

theorem callDataprep_pathConsistent (prep : PrepOutcome) (f : IngestionFile)
    (hs : f.status = .parsed) (hp : pathConsistent f) :
    pathConsistent (callDataprep prep f).file ∧
      ∀ r ∈ (callDataprep prep f).trace, pathConsistent r := by
  have hsome : f.parser_output_path.isSome = true := hp.1 (.inl hs)
  cases prep with
  | ok =>
    refine ⟨⟨fun _ => hsome, fun _ => .inr (.inr (.inl rfl))⟩, ?_⟩
    intro r hr
    simp only [callDataprep, List.mem_cons, List.mem_singleton, List.not_mem_nil,
      or_false] at hr
    rcases hr with hr | hr
    · subst hr
      exact ⟨fun _ => hsome, fun _ => .inr (.inl rfl)⟩
    · subst hr
      exact ⟨fun _ => hsome, fun _ => .inr (.inr (.inl rfl))⟩
  | error m =>
    refine ⟨pathConsistent_of_failed _ rfl, ?_⟩
    intro r hr
    simp only [callDataprep, List.mem_cons, List.mem_singleton, List.not_mem_nil,
      or_false] at hr
    rcases hr with hr | hr
    · subst hr
      exact ⟨fun _ => hsome, fun _ => .inr (.inl rfl)⟩
    · subst hr
      exact pathConsistent_of_failed _ rfl

theorem updateFileStatus_in_qdrant (f : IngestionFile) (st : IngestionStatus)
    (e : String) : (updateFileStatus f st e).in_qdrant = f.in_qdrant := rfl

theorem monitor_in_qdrant (polls : Nat → PollResult) (mr ri : Nat) (fn : String)
    (f : IngestionFile) :
    (monitor polls mr ri fn f).file.in_qdrant = f.in_qdrant :=
  monitorGo_in_qdrant polls (timeoutMessage fn mr ri) 0 mr f

theorem monitor_error_cases (polls : Nat → PollResult) (mr ri : Nat) (fn : String)
    (f : IngestionFile) (msg : String)
    (h : (monitor polls mr ri fn f).error = some msg) :
    msg = timeoutMessage fn mr ri ∨ (∃ i m, polls i = .exn m ∧ msg = m) ∨
      ∃ e, msg = "Parsing failed: " ++ e :=
  monitorGo_error_cases polls (timeoutMessage fn mr ri) 0 mr f msg h

theorem runFilePipeline_in_qdrant (inp : FileInput) :
    (runFilePipeline inp).file.in_qdrant = inp.file.in_qdrant := by
  unfold runFilePipeline
  rcases hm : (monitor inp.polls inp.maxRetries inp.retryInterval
      inp.file.filename inp.file).error with _ | msg
  · simp only [hm]
    rw [callDataprep_in_qdrant]
    exact monitor_in_qdrant _ _ _ _ _
  · simp only [hm]
    exact monitor_in_qdrant _ _ _ _ _

theorem processOneCaught_in_qdrant (inp : FileInput) :
    (processOneCaught inp).1.in_qdrant = inp.file.in_qdrant := by
  unfold processOneCaught
  rcases hr : (runFilePipeline inp).error with _ | msg
  · simp only [hr]
    exact runFilePipeline_in_qdrant inp
  · simp only [hr]
    rw [updateFileStatus_in_qdrant]
    exact runFilePipeline_in_qdrant inp

theorem runFilePipeline_error_ne_empty (inp : FileInput)
    (hgood : goodMessages inp) (msg : String)
    (h : (runFilePipeline inp).error = some msg) : msg ≠ "" := by
  unfold runFilePipeline at h
  rcases hm : (monitor inp.polls inp.maxRetries inp.retryInterval
      inp.file.filename inp.file).error with _ | m
  · simp only [hm] at h
    exact hgood.2 msg (callDataprep_error_eq inp.prep _ msg h)
  · simp only [hm] at h
    rw [← Option.some_inj.mp h]
    rcases monitor_error_cases _ _ _ _ _ _ hm with hm1 | ⟨i, e, hpi, hme⟩ | ⟨e, hme⟩
    · rw [hm1]
      exact timeoutMessage_ne_empty _ _ _
    · rw [hme]
      exact hgood.1 i e hpi
    · rw [hme]
      exact parsingFailed_ne_empty e

theorem processOneCaught_failed_of_raised (inp : FileInput) (msg : String)
    (hne : msg ≠ "") (h : (runFilePipeline inp).error = some msg) :
    (processOneCaught inp).1.status = .failed ∧
      (processOneCaught inp).1.error_message = some msg := by
  unfold processOneCaught
  simp only [h]
  simp [updateFileStatus, hne]

theorem monitor_pathConsistent (polls : Nat → PollResult) (mr ri : Nat)
    (fn : String) (f : IngestionFile)
    (hpath : completedHasPath polls) (hf : pathConsistent f) :
    pathConsistent (monitor polls mr ri fn f).file ∧
      ∀ r ∈ (monitor polls mr ri fn f).trace, pathConsistent r :=
  monitorGo_pathConsistent polls (timeoutMessage fn mr ri) 0 mr f hpath hf

theorem monitor_parsed_of_error_none (polls : Nat → PollResult) (mr ri : Nat)
    (fn : String) (f : IngestionFile)
    (h : (monitor polls mr ri fn f).error = none) :
    (monitor polls mr ri fn f).file.status = .parsed :=
  monitorGo_parsed_of_error_none polls (timeoutMessage fn mr ri) 0 mr f h

theorem runFilePipeline_trace_pathConsistent (inp : FileInput)
    (hpath : completedHasPath inp.polls) (hf : pathConsistent inp.file) :
    ∀ r ∈ (runFilePipeline inp).trace, pathConsistent r := by
  unfold runFilePipeline
  rcases hm : (monitor inp.polls inp.maxRetries inp.retryInterval
      inp.file.filename inp.file).error with _ | msg
  · simp only [hm]
    intro r hr
    rw [List.mem_append, List.mem_cons] at hr
    rcases hr with (rfl | hr) | hr
    · exact hf
    · exact (monitor_pathConsistent _ _ _ _ _ hpath hf).2 r hr
    · refine (callDataprep_pathConsistent inp.prep _ ?_ ?_).2 r hr
      · exact monitor_parsed_of_error_none _ _ _ _ _ hm
      · exact (monitor_pathConsistent _ _ _ _ _ hpath hf).1
  · simp only [hm]
    intro r hr
    rw [List.mem_cons] at hr
    rcases hr with rfl | hr
    · exact hf
    · exact (monitor_pathConsistent _ _ _ _ _ hpath hf).2 r hr

/-- Claim C4 (amended): along every persisted snapshot of a background
pipeline run, provided every `"completed"` parser response carries an output
path and the starting record is consistent, a record in `parsed`, `preparing`
or `completed` carries a parser output path, and a record carrying one is in
`parsed`, `preparing`, `completed` or `failed` (a record that fails after
parsing retains its path). -/
theorem parser_output_path_invariant (inp : FileInput)
    (hpath : completedHasPath inp.polls) (hf : pathConsistent inp.file) :
    ∀ r ∈ (processOneCaught inp).2, pathConsistent r := by
  unfold processOneCaught
  rcases hr : (runFilePipeline inp).error with _ | msg
  · simp only [hr]
    exact runFilePipeline_trace_pathConsistent inp hpath hf
  · simp only [hr]
    intro r hrr
    rw [List.mem_append, List.mem_singleton] at hrr
    rcases hrr with hrr | rfl
    · exact runFilePipeline_trace_pathConsistent inp hpath hf r hrr
    · exact pathConsistent_of_failed _ rfl

/-- Claim C5: the batch loop produces one result per file, each file's result
is that of its own caught run, independent of its siblings, and whenever a
file's pipeline body raises with message `msg`, that file's final record is
terminal `failed` with `msg` attached (hypothesis: the exception messages the
external services can produce are non-empty strings). -/
theorem per_file_failure_isolation (inputs : List FileInput)
    (hgood : ∀ inp ∈ inputs, goodMessages inp) :
    (processBatch inputs).length = inputs.length ∧
    ∀ (i : Nat) (hi : i < inputs.length) (hpi : i < (processBatch inputs).length),
      (processBatch inputs).get ⟨i, hpi⟩ = (processOneCaught (inputs.get ⟨i, hi⟩)).1 ∧
      ∀ msg, (runFilePipeline (inputs.get ⟨i, hi⟩)).error = some msg →
        ((processBatch inputs).get ⟨i, hpi⟩).status = .failed ∧
        ((processBatch inputs).get ⟨i, hpi⟩).error_message = some msg := by
  constructor
  · exact List.length_map _ _
  · intro i hi hpi
    have hget : (processBatch inputs).get ⟨i, hpi⟩ =
        (processOneCaught (inputs.get ⟨i, hi⟩)).1 := by
      simp [processBatch]
    refine ⟨hget, ?_⟩
    intro msg hmsg
    rw [hget]
    exact processOneCaught_failed_of_raised _ msg
      (runFilePipeline_error_ne_empty _ (hgood _ (List.get_mem inputs i hi)) msg hmsg)
      hmsg

theorem updateFirstMatch_spec (fid otp : String) :
    ∀ (db : List IngestionFile), (∃ f ∈ db, f.batch_job_file_id = fid) →
    ∃ l₁ f l₂, db = l₁ ++ f :: l₂ ∧ (∀ g ∈ l₁, g.batch_job_file_id ≠ fid) ∧
      f.batch_job_file_id = fid ∧
      updateFirstMatch db fid otp = l₁ ++ addToQdrantUpdateExisting f otp :: l₂ := by
  intro db
  induction db with
  | nil =>
    rintro ⟨f, hf, _⟩
    exact absurd hf (List.not_mem_nil f)
  | cons g rest ih =>
    intro h
    by_cases hg : g.batch_job_file_id = fid
    · refine ⟨[], g, rest, rfl, by simp, hg, ?_⟩
      unfold updateFirstMatch
      rw [if_pos (beq_iff_eq.mpr hg)]
      rfl
    · obtain ⟨f, hf, hfid⟩ := h
      rw [List.mem_cons] at hf
      rcases hf with rfl | hf
      · exact absurd hfid hg
      obtain ⟨l₁, f', l₂, hdb, hl₁, hfid', hupd⟩ := ih ⟨f, hf, hfid⟩
      refine ⟨g :: l₁, f', l₂, by rw [hdb, List.cons_append], ?_, hfid', ?_⟩
      · intro g' hg'
        rw [List.mem_cons] at hg'
        rcases hg' with rfl | hg'
        · exact hg
        · exact hl₁ g' hg'
      · unfold updateFirstMatch
        rw [if_neg (by simp [hg]), hupd, List.cons_append]

/-- Claim C9: when a record with the given file id already exists, the
add-to-qdrant database update keeps the table the same length and replaces
the first matching record in place with its sub-status-updated version
(`in_qdrant`, `dataprep_status`, `status`, `output_tree_path`), creating no
second record for that file identifier. -/
theorem add_to_qdrant_idempotent (db : List IngestionFile)
    (batch_id fid fn otp : String)
    (h : ∃ f ∈ db, f.batch_job_file_id = fid) :
    (addToQdrantDb db batch_id fid fn otp).length = db.length ∧
    ∃ l₁ f l₂, db = l₁ ++ f :: l₂ ∧ (∀ g ∈ l₁, g.batch_job_file_id ≠ fid) ∧
      f.batch_job_file_id = fid ∧
      addToQdrantDb db batch_id fid fn otp =
        l₁ ++ addToQdrantUpdateExisting f otp :: l₂ := by
  have hany : (db.any fun f => f.batch_job_file_id == fid) = true := by
    rcases h with ⟨f, hf, hfid⟩
    exact List.any_eq_true.mpr ⟨f, hf, beq_iff_eq.mpr hfid⟩
  have heq : addToQdrantDb db batch_id fid fn otp = updateFirstMatch db fid otp := by
    unfold addToQdrantDb
    rw [if_pos hany]
  obtain ⟨l₁, f, l₂, hdb, hl₁, hfid, hupd⟩ := updateFirstMatch_spec fid otp db h
  refine ⟨?_, l₁, f, l₂, hdb, hl₁, hfid, by rw [heq, hupd]⟩
  rw [heq, hupd, hdb]
  simp

/-- Claim C10: an empty upload list, more than 10 files, or any filename that
is not a `.pdf` (case-insensitively) makes the ingestion endpoint return a
400 error without submitting anything to the parsing service and without
creating any job or file record. -/
theorem ingest_validation_rejects (files : List String) (submit : SubmitOutcome)
    (h : files = [] ∨ files.length > 10 ∨ ∃ n ∈ files, endsWithPdf n = false) :
    (ingest_documents files submit).parser_submitted = false ∧
    (ingest_documents files submit).jobs_created = 0 ∧
    (ingest_documents files submit).files_created = 0 ∧
    ∃ d, (ingest_documents files submit).result = .error (400, d) := by
  by_cases he : files.isEmpty = true
  · unfold ingest_documents
    rw [if_pos he]
    exact ⟨rfl, rfl, rfl, _, rfl⟩
  · by_cases hl : files.length > 10
    · unfold ingest_documents
      rw [if_neg he, if_pos hl]
      exact ⟨rfl, rfl, rfl, _, rfl⟩
    · have hbad : ∃ n ∈ files, (fun n => !endsWithPdf n) n = true := by
        rcases h with h | h | ⟨n, hn, hb⟩
        · exact absurd (by simp [h]) he
        · exact absurd h hl
        · exact ⟨n, hn, by simp [hb]⟩
      have hsome := List.find?_isSome.mpr hbad
      obtain ⟨bad, hfind⟩ : ∃ b, files.find? (fun n => !endsWithPdf n) = some b :=
        ⟨_, (Option.some_get hsome).symm⟩
      unfold ingest_documents
      rw [if_neg he, if_neg hl, hfind]
      exact ⟨rfl, rfl, rfl, _, rfl⟩

theorem allCompleted_iff (files : List IngestionStatus) :
    (files.all fun s => statusValue s == "completed") = true ↔
      ∀ s ∈ files, s = .completed := by
  rw [List.all_eq_true]
  constructor
  · intro h s hs
    have := h s hs
    cases s <;> first | rfl | exact absurd this (by decide)
  · intro h s hs
    rw [h s hs]
    rfl

theorem anyFailed_iff (files : List IngestionStatus) :
    (files.any fun s => statusValue s == "failed") = true ↔
      ∃ s ∈ files, s = .failed := by
  rw [List.any_eq_true]
  constructor
  · rintro ⟨s, hs, hv⟩
    refine ⟨s, hs, ?_⟩
    cases s <;> first | rfl | exact absurd hv (by decide)
  · rintro ⟨s, hs, rfl⟩
    exact ⟨.failed, hs, rfl⟩

theorem anyActive_iff (files : List IngestionStatus) :
    (files.any fun s =>
        statusValue s == "parsing" || statusValue s == "preparing") = true ↔
      ∃ s ∈ files, s = .parsing ∨ s = .preparing := by
  rw [List.any_eq_true]
  constructor
  · rintro ⟨s, hs, hv⟩
    refine ⟨s, hs, ?_⟩
    cases s <;> first | exact .inl rfl | exact .inr rfl | exact absurd hv (by decide)
  · rintro ⟨s, hs, rfl | rfl⟩
    · exact ⟨.parsing, hs, rfl⟩
    · exact ⟨.preparing, hs, rfl⟩

theorem statusValue_ne_completed (job : IngestionStatus) (h : job ≠ .completed) :
    statusValue job ≠ "completed" := by
  cases job <;> first | exact absurd rfl h | decide

theorem statusValue_ne_failed (job : IngestionStatus) (h : job ≠ .failed) :
    statusValue job ≠ "failed" := by
  cases job <;> first | exact absurd rfl h | decide

theorem statusValue_ne_processing (job : IngestionStatus) :
    statusValue job ≠ "processing" := by
  cases job <;> decide

/-- Claim C3 (amended): whenever the job's stored status is neither
`completed` nor `failed`, the aggregate job status satisfies the three
iff-characterisations of §4.5 — `"completed"` iff every file is completed,
`"failed"` iff some file is failed, `"processing"` iff some file is parsing or
preparing and none is failed — and in the remaining case it equals the job's
own stored status value. -/
theorem aggregate_status_characterisation (files : List IngestionStatus) (job : IngestionStatus)
    (h1 : job ≠ .completed) (h2 : job ≠ .failed) :
    ((overallStatus files job = "completed") ↔ ∀ s ∈ files, s = .completed) ∧
    ((overallStatus files job = "failed") ↔ ∃ s ∈ files, s = .failed) ∧
    ((overallStatus files job = "processing") ↔
      ((∃ s ∈ files, s = .parsing ∨ s = .preparing) ∧ ∀ s ∈ files, s ≠ .failed)) ∧
    ((¬ ∀ s ∈ files, s = .completed) → (∀ s ∈ files, s ≠ .failed) →
      (∀ s ∈ files, s ≠ .parsing ∧ s ≠ .preparing) →
      overallStatus files job = statusValue job) := by
  unfold overallStatus
  by_cases hA : (files.all fun s => statusValue s == "completed") = true
  · rw [if_pos hA]
    have hall := (allCompleted_iff files).mp hA
    refine ⟨iff_of_true rfl hall, ?_, ?_, ?_⟩
    · refine iff_of_false (by decide) ?_
      rintro ⟨s, hs, rfl⟩
      exact absurd (hall _ hs) (by decide)
    · refine iff_of_false (by decide) ?_
      rintro ⟨⟨s, hs, hsp⟩, -⟩
      rcases hsp with rfl | rfl <;> exact absurd (hall _ hs) (by decide)
    · intro hno
      exact absurd hall hno
  · rw [if_neg hA]
    by_cases hB : (files.any fun s => statusValue s == "failed") = true
    · rw [if_pos hB]
      have hex := (anyFailed_iff files).mp hB
      refine ⟨?_, iff_of_true rfl hex, ?_, ?_⟩
      · refine iff_of_false (by decide) ?_
        intro hall
        exact hA ((allCompleted_iff files).mpr hall)
      · refine iff_of_false (by decide) ?_
        rintro ⟨-, hnf⟩
        obtain ⟨s, hs, rfl⟩ := hex
        exact hnf _ hs rfl
      · intro _ hnf _
        obtain ⟨s, hs, rfl⟩ := hex
        exact absurd rfl (hnf _ hs)
    · rw [if_neg hB]
      by_cases hC : (files.any fun s =>
          statusValue s == "parsing" || statusValue s == "preparing") = true
      · rw [if_pos hC]
        have hact := (anyActive_iff files).mp hC
        refine ⟨?_, ?_, ?_, ?_⟩
        · refine iff_of_false (by decide) ?_
          intro hall
          obtain ⟨s, hs, hsp⟩ := hact
          rcases hsp with rfl | rfl <;> exact absurd (hall _ hs) (by decide)
        · refine iff_of_false (by decide) ?_
          intro hex
          exact hB ((anyFailed_iff files).mpr hex)
        · refine iff_of_true rfl ⟨hact, ?_⟩
          intro s hs hsf
          exact hB ((anyFailed_iff files).mpr ⟨s, hs, hsf⟩)
        · intro _ _ hnp
          obtain ⟨s, hs, hsp⟩ := hact
          rcases hsp with rfl | rfl
          · exact absurd rfl (hnp _ hs).1
          · exact absurd rfl (hnp _ hs).2
      · rw [if_neg hC]
        refine ⟨?_, ?_, ?_, fun _ _ _ => rfl⟩
        · refine iff_of_false (statusValue_ne_completed job h1) ?_
          intro hall
          exact hA ((allCompleted_iff files).mpr hall)
        · refine iff_of_false (statusValue_ne_failed job h2) ?_
          intro hex
          exact hB ((anyFailed_iff files).mpr hex)
        · refine iff_of_false (statusValue_ne_processing job) ?_
          rintro ⟨hact, -⟩
          exact hC ((anyActive_iff files).mpr hact)

/-- Claim C6 (amended): if every check within the budget reports a
non-terminal outcome and the final allowed check returns a response rather
than raising a transport error, the file's final status is `failed` and its
recorded error is the timeout message naming the file and the timeout
duration `max_retries * retry_interval`. -/
theorem timeout_budget_failed (inp : FileInput)
    (h1 : 1 ≤ inp.maxRetries)
    (h2 : ∀ j, j < inp.maxRetries → nonTerminalB (inp.polls j) = true)
    (h3 : ∃ resp, inp.polls (inp.maxRetries - 1) = .ok resp) :
    (processOneCaught inp).1.status = .failed ∧
      (processOneCaught inp).1.error_message =
        some (timeoutMessage inp.file.filename inp.maxRetries inp.retryInterval) := by
  have hmon : (monitor inp.polls inp.maxRetries inp.retryInterval
      inp.file.filename inp.file).error =
      some (timeoutMessage inp.file.filename inp.maxRetries inp.retryInterval) := by
    unfold monitor
    refine monitorGo_timeout _ _ 0 _ _ h1 ?_ ?_
    · intro j hj1 hj2
      exact h2 j (by omega)
    · obtain ⟨resp, hresp⟩ := h3
      exact ⟨resp, by rw [show 0 + inp.maxRetries - 1 = inp.maxRetries - 1 by omega]; exact hresp⟩
  have hraise : (runFilePipeline inp).error =
      some (timeoutMessage inp.file.filename inp.maxRetries inp.retryInterval) := by
    unfold runFilePipeline
    rw [hmon]
  exact processOneCaught_failed_of_raised inp _ (timeoutMessage_ne_empty _ _ _) hraise

/-- Claim C7: with a polling budget of `n ≥ 1` checks, stage `"pending"`
reported on the first `n - 1` checks and `"completed"` on the final allowed
check, monitoring returns normally and the file's lifecycle status is
`parsed`, not `failed`. -/
theorem last_attempt_success_parsed (polls : Nat → PollResult) (n ri : Nat)
    (fn : String) (f : IngestionFile) (h1 : 1 ≤ n)
    (h2 : ∀ j, j < n - 1 → pollStage (polls j) = some "pending")
    (h3 : pollStage (polls (n - 1)) = some "completed") :
    (monitor polls n ri fn f).error = none ∧
      (monitor polls n ri fn f).file.status = .parsed := by
  unfold monitor
  refine monitorGo_last_completed _ _ 0 _ _ h1 ?_ ?_
  · intro j hj1 hj2
    exact h2 j (by omega)
  · rw [show 0 + n - 1 = n - 1 by omega]
    exact h3

/-- Claim C1, evaluated at the failing input: with a budget of 2 checks, a
first poll reporting stage `"failed"` (error `"upstream parse error"`) and a
second reporting `"completed"`, the orchestrator does commit the terminal
failed status, but the `RuntimeError` it raises is swallowed by the polling
loop's own exception handler, so monitoring continues and the later
`"completed"` poll overwrites `failed` with `parsed`; the run then ends
`completed` with no error escaping the monitor.  The claim asserts that after
an upstream rejection no further poll happens and `failed` is terminal. -/
theorem upstream_reject_keeps_polling :
    statusTrace rejectThenCompleteInput =
      [.parsing, .failed, .parsed, .preparing, .completed] ∧
    (processOneCaught rejectThenCompleteInput).1.status = .completed ∧
    (monitor rejectThenCompletePolls 2 5 "doc.pdf" sampleFile).error = none := by
  decide

/-- Claim C2, evaluated at the failing input: the persisted status sequence of
the run over `rejectThenCompleteInput` is
`parsing, failed, parsed, preparing, completed`, which leaves the terminal
`failed` state backwards and is rejected by the state-machine checker
`monotoneOK`; a normal successful sequence is accepted, so the checker is not
vacuous. -/
theorem lifecycle_backward_transition :
    statusTrace rejectThenCompleteInput =
      [.parsing, .failed, .parsed, .preparing, .completed] ∧
    monotoneOK (statusTrace rejectThenCompleteInput) = false ∧
    monotoneOK [.parsing, .parsed, .preparing, .completed] = true := by
  decide

/-- Claim C3 counterexample: for a job whose stored status is `completed` and
a single file in state `parsed`, the aggregate computation falls through to
the job's stored status and returns `"completed"` although not every file is
completed, refuting the claimed `completed`-iff characterisation. -/
theorem aggregate_status_counterexample :
    overallStatus [.parsed] .completed = "completed" ∧
    ¬ ∀ s ∈ [IngestionStatus.parsed], s = .completed := by
  decide

/-- Witness for `aggregate_status_characterisation` at a concrete queued job
with one parsing file. -/
theorem aggregate_status_witness :
    ((overallStatus [.parsing] .queued = "completed") ↔
      ∀ s ∈ [IngestionStatus.parsing], s = .completed) ∧
    ((overallStatus [.parsing] .queued = "failed") ↔
      ∃ s ∈ [IngestionStatus.parsing], s = .failed) ∧
    ((overallStatus [.parsing] .queued = "processing") ↔
      ((∃ s ∈ [IngestionStatus.parsing], s = .parsing ∨ s = .preparing) ∧
        ∀ s ∈ [IngestionStatus.parsing], s ≠ .failed)) ∧
    ((¬ ∀ s ∈ [IngestionStatus.parsing], s = .completed) →
      (∀ s ∈ [IngestionStatus.parsing], s ≠ .failed) →
      (∀ s ∈ [IngestionStatus.parsing], s ≠ .parsing ∧ s ≠ .preparing) →
      overallStatus [.parsing] .queued = statusValue .queued) :=
  aggregate_status_characterisation [.parsing] .queued (by decide) (by decide)

/-- Claim C4 counterexample: three reachable records refute the claimed iff —
a record that fails during preparation keeps its parser output path, a record
parsed from a `"completed"` response lacking `output_path` reaches `completed`
with an empty path, and a record created by the manual add-to-qdrant path is
`completed` with an empty parser output path. -/
theorem parser_output_path_counterexample :
    (¬ (((processOneCaught prepFailInput).1.parser_output_path ≠ none) ↔
      ((processOneCaught prepFailInput).1.status = .parsed ∨
        (processOneCaught prepFailInput).1.status = .preparing ∨
        (processOneCaught prepFailInput).1.status = .completed))) ∧
    (¬ (((processOneCaught noPathInput).1.parser_output_path ≠ none) ↔
      ((processOneCaught noPathInput).1.status = .parsed ∨
        (processOneCaught noPathInput).1.status = .preparing ∨
        (processOneCaught noPathInput).1.status = .completed))) ∧
    (¬ (((addToQdrantNewRecord "b" "f" "doc.pdf" "/t").parser_output_path ≠ none) ↔
      ((addToQdrantNewRecord "b" "f" "doc.pdf" "/t").status = .parsed ∨
        (addToQdrantNewRecord "b" "f" "doc.pdf" "/t").status = .preparing ∨
        (addToQdrantNewRecord "b" "f" "doc.pdf" "/t").status = .completed))) := by
  decide

/-- Witness for `parser_output_path_invariant` on a successful run. -/
theorem parser_output_path_witness :
    completedHasPath prepOkInput.polls ∧ pathConsistent prepOkInput.file ∧
    ∀ r ∈ (processOneCaught prepOkInput).2, pathConsistent r := by
  have hp : completedHasPath prepOkInput.polls := by
    intro i resp h hc
    cases h
    rfl
  exact ⟨hp, by decide, parser_output_path_invariant prepOkInput hp (by decide)⟩

/-- Witness for `per_file_failure_isolation`: a one-file batch whose only
monitoring attempt raises a transport error ends `failed` with that message. -/
theorem per_file_failure_isolation_witness :
    (processBatch [failFastInput]).length = 1 ∧
    (processOneCaught failFastInput).1.status = .failed ∧
    (processOneCaught failFastInput).1.error_message = some "boom" := by
  have hgood : ∀ inp ∈ [failFastInput], goodMessages inp := by
    intro inp hm
    rw [List.mem_singleton] at hm
    subst hm
    constructor
    · intro i msg h
      cases h
      decide
    · intro msg h
      exact PrepOutcome.noConfusion h
  have h := per_file_failure_isolation [failFastInput] hgood
  have h2 := (h.2 0 (by decide) (by rw [h.1]; decide)).2 "boom" (by decide)
  exact ⟨h.1, h2.1, h2.2⟩

/-- Claim C6 counterexample: a budget of 60 checks that all raise the
transport error `"Connection refused"` never observes a terminal stage; the
final status is `failed`, but the recorded message is the re-raised transport
error, not the timeout-specific message. -/
theorem timeout_message_counterexample :
    (processOneCaught transportFailInput).1.status = .failed ∧
    (processOneCaught transportFailInput).1.error_message =
      some "Connection refused" ∧
    "Connection refused" ≠ timeoutMessage "doc.pdf" 60 5 := by
  decide

/-- Witness for `timeout_budget_failed`: 60 checks that all report
`"pending"`. -/
theorem timeout_budget_witness :
    (processOneCaught pendingInput).1.status = .failed ∧
    (processOneCaught pendingInput).1.error_message =
      some (timeoutMessage "doc.pdf" 60 5) :=
  timeout_budget_failed pendingInput (by decide) (fun j hj => rfl)
    ⟨⟨some "pending", none, none⟩, rfl⟩

/-- Witness for `last_attempt_success_parsed` at the default budget of 60. -/
theorem last_attempt_success_witness :
    (monitor boundaryPolls 60 5 "doc.pdf" sampleFile).error = none ∧
    (monitor boundaryPolls 60 5 "doc.pdf" sampleFile).file.status = .parsed :=
  last_attempt_success_parsed boundaryPolls 60 5 "doc.pdf" sampleFile (by decide)
    (fun j hj => by
      simp only [boundaryPolls]
      rw [if_pos (show j < 59 by omega)]
      rfl)
    (by decide)

/-- Claim C8 (amended): no background pipeline run ever changes a record's
`in_qdrant` flag; the flag is set to true only by the manual add-to-qdrant
path, both when it updates an existing record and when it creates a new
one. -/
theorem in_qdrant_flag_locations :
    (∀ inp : FileInput, (processOneCaught inp).1.in_qdrant = inp.file.in_qdrant) ∧
    (∀ f otp, (addToQdrantUpdateExisting f otp).in_qdrant = true) ∧
    (∀ b fid fn otp, (addToQdrantNewRecord b fid fn otp).in_qdrant = true) :=
  ⟨processOneCaught_in_qdrant, fun _ _ => rfl, fun _ _ _ _ => rfl⟩

/-- Claim C8 counterexample: a pipeline run whose preparation call succeeds
moves the file from `preparing` to `completed` without setting the
`in_qdrant` flag. -/
theorem pipeline_in_qdrant_counterexample :
    (processOneCaught prepOkInput).1.status = .completed ∧
    (processOneCaught prepOkInput).1.in_qdrant = false := by
  decide

/-- Witness for `add_to_qdrant_idempotent` on a one-record table. -/
theorem add_to_qdrant_witness :
    (addToQdrantDb [sampleFile] "batch-1" "file-1" "doc.pdf" "/t/out.json").length
        = [sampleFile].length ∧
    ∃ l₁ f l₂, [sampleFile] = l₁ ++ f :: l₂ ∧
      (∀ g ∈ l₁, g.batch_job_file_id ≠ "file-1") ∧
      f.batch_job_file_id = "file-1" ∧
      addToQdrantDb [sampleFile] "batch-1" "file-1" "doc.pdf" "/t/out.json" =
        l₁ ++ addToQdrantUpdateExisting f "/t/out.json" :: l₂ :=
  add_to_qdrant_idempotent [sampleFile] "batch-1" "file-1" "doc.pdf" "/t/out.json"
    ⟨sampleFile, by decide, rfl⟩

/-- Witness for `ingest_validation_rejects` on a single non-PDF filename. -/
theorem ingest_validation_witness :
    (ingest_documents ["notes.txt"] (.ok (some "batch-9") ["f9"])).parser_submitted
        = false ∧
    (ingest_documents ["notes.txt"] (.ok (some "batch-9") ["f9"])).jobs_created = 0 ∧
    (ingest_documents ["notes.txt"] (.ok (some "batch-9") ["f9"])).files_created = 0 ∧
    ∃ d, (ingest_documents ["notes.txt"] (.ok (some "batch-9") ["f9"])).result =
      .error (400, d) :=
  ingest_validation_rejects ["notes.txt"] (.ok (some "batch-9") ["f9"])
    (.inr (.inr ⟨"notes.txt", by decide, by decide⟩))
